import Mathlib

/-!
# Verification of the mx-host-core-worker reactive core

Shallow embedding of the notification primitives
(`src/src/generatorlistener.ts`), the service registry
(`src/src/index.ts`) and the permission-grant engine
(`src/src/services/apps/index.ts`), with theorems checking the
natural-language specification against the code.

Conventions of the embedding:
* JavaScript values are modelled by `JSVal`; JavaScript's strict
  (in)equality `!==` on such values is modelled by decidable equality on
  `JSVal` (two `obj` values are equal exactly when they are the same
  reference), and JavaScript truthiness by `JSVal.truthy`.
* A JavaScript `Set` of waiter callbacks is modelled as a `List Nat` of
  waiter identities (a `Set` holds each callback at most once, and
  `forEach` invokes each element exactly once, in insertion order).
* "Waking" waiters is made observable by returning the list of woken
  waiter identities alongside the updated state.
-/

/-- A JavaScript value, as far as strict equality (`!==`) and truthiness
are concerned.  `obj r` stands for a reference to an object with identity
`r`; `NaN` (for which `x !== x`) does not occur in this codebase's tables
and is not modelled. -/
inductive JSVal where
  | undef
  | null
  | boolean (b : Bool)
  | num (n : Int)
  | str (s : String)
  | obj (ref : Nat)
deriving DecidableEq, Repr

/-- JavaScript truthiness of a `JSVal`. -/
def JSVal.truthy : JSVal → Bool
  | .undef => false
  | .null => false
  | .boolean b => b
  | .num n => n != 0
  | .str s => s != ""
  | .obj _ => true

/-- State of a `GeneratorListener<T>` (the spec's *NotificationCell*):
the stored value `_value` and the set of registered one-shot waiter
callbacks. -/
structure GeneratorListener where
  value : JSVal
  callbacks : List Nat
deriving DecidableEq, Repr

namespace GeneratorListener

/-- `GeneratorListener.pushUpdate`: invoke every registered callback and
clear the callback set.  Returns the new state and the woken waiters. -/
def pushUpdate (st : GeneratorListener) : GeneratorListener × List Nat :=
  ({ st with callbacks := [] }, st.callbacks)

/-- The `value` setter of `GeneratorListener`:
`const update = this._value !== v; this._value = v; if (update) this.pushUpdate()`. -/
def setValue (st : GeneratorListener) (v : JSVal) : GeneratorListener × List Nat :=
  let update := st.value ≠ v
  let st' : GeneratorListener := { st with value := v }
  if update then st'.pushUpdate else (st', [])

end GeneratorListener

/-- State of a `MapGeneratorListener<V>` (the spec's
*KeyedNotificationTable*): the backing `map` (a key is present exactly
when `map k = some v`), the existence waiters `callbacks` (registered by
`generateKeys`), the per-key waiters `key_callbacks` (an absent per-key
set is modelled by `[]`), and the whole-table waiters `map_callbacks`
(registered by `generateMap`). -/
structure MapGeneratorListener where
  map : String → Option JSVal
  callbacks : List Nat
  key_callbacks : String → List Nat
  map_callbacks : List Nat

namespace MapGeneratorListener

/-- `MapGeneratorListener.pushKeyUpdate`: wake and clear the existence
waiters. -/
def pushKeyUpdate (st : MapGeneratorListener) : MapGeneratorListener × List Nat :=
  ({ st with callbacks := [] }, st.callbacks)

/-- Result of one `setKey` write through the `value` proxy: the new table
state and the three groups of woken waiters. -/
structure SetKeyResult where
  state : MapGeneratorListener
  woke_exist : List Nat
  woke_key : List Nat
  woke_map : List Nat

/-- The `setKey` closure inside the `value` getter of
`MapGeneratorListener` (this is what both the proxy `set` trap, with the
written value, and the proxy `deleteProperty` trap, with `undefined`,
invoke):

```
const prev = self.map[key]
if (val) { self.map[key] = val } else { delete self.map[key] }
if (val !== prev) {
  if (val ? !prev : prev) { self.pushKeyUpdate() }
  self.pushUpdate(key)
}
```

Reading `self.map[key]` for an absent key yields `undefined`;
`self.pushUpdate(key)` wakes the per-key waiters of `key` and deletes
their set, then wakes and clears the whole-table waiters.
`existChange prev val` is the source's `val ? !prev : prev`. -/
def existChange (prev val : JSVal) : Bool :=
  if val.truthy then !prev.truthy else prev.truthy

/-- See `existChange` for the source text this embeds. -/
def setKey (st : MapGeneratorListener) (key : String) (val : JSVal) : SetKeyResult :=
  let prev : JSVal := (st.map key).getD .undef
  let m : String → Option JSVal :=
    if val.truthy then Function.update st.map key (some val)
    else Function.update st.map key none
  let st1 : MapGeneratorListener := { st with map := m }
  if val ≠ prev then
    let (st2, woke_exist) :=
      if existChange prev val then st1.pushKeyUpdate
      else (st1, [])
    let st3 : MapGeneratorListener :=
      { st2 with
        key_callbacks := Function.update st2.key_callbacks key []
        map_callbacks := [] }
    { state := st3
      woke_exist := woke_exist
      woke_key := st2.key_callbacks key
      woke_map := st2.map_callbacks }
  else
    { state := st1, woke_exist := [], woke_key := [], woke_map := [] }

/-- Unfolding of `setKey` in the changed-value case. -/
theorem setKey_of_ne (st : MapGeneratorListener) (key : String) (val : JSVal)
    (h : val ≠ (st.map key).getD .undef) :
    st.setKey key val =
      { state :=
          { map := if val.truthy then Function.update st.map key (some val)
              else Function.update st.map key none
            callbacks :=
              if existChange ((st.map key).getD .undef) val then [] else st.callbacks
            key_callbacks := Function.update st.key_callbacks key []
            map_callbacks := [] }
        woke_exist :=
          if existChange ((st.map key).getD .undef) val then st.callbacks else []
        woke_key := st.key_callbacks key
        woke_map := st.map_callbacks } := by
  by_cases hc : existChange ((st.map key).getD .undef) val
  · simp only [MapGeneratorListener.setKey, MapGeneratorListener.pushKeyUpdate,
      if_pos h, if_pos hc]
  · simp only [MapGeneratorListener.setKey, MapGeneratorListener.pushKeyUpdate,
      if_pos h, if_neg hc]

/-- Unfolding of `setKey` in the unchanged-value case: no waiter is
woken and no waiter set is touched. -/
theorem setKey_of_eq (st : MapGeneratorListener) (key : String) (val : JSVal)
    (h : val = (st.map key).getD .undef) :
    st.setKey key val =
      { state :=
          { st with
            map := if val.truthy then Function.update st.map key (some val)
              else Function.update st.map key none }
        woke_exist := [], woke_key := [], woke_map := [] } := by
  simp only [MapGeneratorListener.setKey, if_neg (not_not_intro h)]

end MapGeneratorListener

/-- A concrete table used as a counterexample input: one present key
`"a" ↦ 1` with an existence waiter `0`, a per-key waiter `1` on `"a"`,
and a whole-table waiter `2`. -/
def tableA : MapGeneratorListener :=
  { map := fun k => if k = "a" then some (.num 1) else none
    callbacks := [0]
    key_callbacks := fun k => if k = "a" then [1] else []
    map_callbacks := [2] }

/-- A concrete empty table with a per-key waiter `5` on the absent key
`"k"`, an existence waiter `4`, and a whole-table waiter `6`. -/
def tableEmpty : MapGeneratorListener :=
  { map := fun _ => none
    callbacks := [4]
    key_callbacks := fun k => if k = "k" then [5] else []
    map_callbacks := [6] }

/-- C4: the `GeneratorListener` setter wakes every registered waiter
exactly once and clears the waiter set when the new value is
reference-unequal to the stored one, and is a complete no-op (no waiter
woken, waiter set and value unchanged) when the new value equals the
stored one. -/
theorem generatorListener_set_conditional (st : GeneratorListener) (v : JSVal) :
    (v ≠ st.value →
      (st.setValue v).2 = st.callbacks ∧
      (st.setValue v).1.callbacks = [] ∧
      (st.setValue v).1.value = v ∧
      ∀ c, ((st.setValue v).2.count c = st.callbacks.count c)) ∧
    (v = st.value → st.setValue v = (st, [])) := by
  constructor
  · intro h
    have h' : st.value ≠ v := fun hc => h hc.symm
    simp [GeneratorListener.setValue, GeneratorListener.pushUpdate, h']
  · intro h
    subst h
    simp [GeneratorListener.setValue]

/-- C4 witness: instantiation at a concrete cell and value. -/
theorem generatorListener_set_conditional_witness :
    ((JSVal.num 2) ≠ (GeneratorListener.mk (.num 1) [7]).value ∧
      ((GeneratorListener.mk (.num 1) [7]).setValue (.num 2)).2 = [7]) ∧
    ((JSVal.num 1) = (GeneratorListener.mk (.num 1) [7]).value ∧
      (GeneratorListener.mk (.num 1) [7]).setValue (.num 1) =
        (GeneratorListener.mk (.num 1) [7], [])) :=
  ⟨⟨by decide,
    ((generatorListener_set_conditional (GeneratorListener.mk (.num 1) [7])
      (.num 2)).1 (by decide)).1⟩,
   ⟨by decide,
    (generatorListener_set_conditional (GeneratorListener.mk (.num 1) [7])
      (.num 1)).2 (by decide)⟩⟩

/-- C1 counterexample: with key `"a" ↦ 1` present and waiters registered,
writing the *same* value `1` to `"a"` wakes neither the per-key waiter
nor the whole-table waiter — the table's write notification is guarded by
`val !== prev`, so it is change-conditional, not unconditional. -/
theorem mapTable_same_value_write_no_wake :
    tableA.key_callbacks "a" = [1] ∧ tableA.map_callbacks = [2] ∧
    (tableA.setKey "a" (.num 1)).woke_key = [] ∧
    (tableA.setKey "a" (.num 1)).woke_map = [] := by
  refine ⟨rfl, rfl, ?_, ?_⟩ <;> decide

/-- C1 amended: a `MapGeneratorListener` write wakes the per-key waiters
of the written key and the whole-table waiters (clearing both sets) iff
the written value is reference-unequal to the prior value read at the
key (`undefined` when absent); a write of an identical value wakes no
waiter at all — exactly the same change-conditional rule as
`GeneratorListener`. -/
theorem mapTable_write_change_conditional
    (st : MapGeneratorListener) (key : String) (val : JSVal) :
    (val ≠ (st.map key).getD .undef →
      (st.setKey key val).woke_key = st.key_callbacks key ∧
      (st.setKey key val).woke_map = st.map_callbacks ∧
      (st.setKey key val).state.key_callbacks key = [] ∧
      (st.setKey key val).state.map_callbacks = []) ∧
    (val = (st.map key).getD .undef →
      (st.setKey key val).woke_key = [] ∧
      (st.setKey key val).woke_map = [] ∧
      (st.setKey key val).woke_exist = []) := by
  constructor
  · intro h
    rw [MapGeneratorListener.setKey_of_ne st key val h]
    simp [Function.update_same]
  · intro h
    rw [MapGeneratorListener.setKey_of_eq st key val h]
    exact ⟨rfl, rfl, rfl⟩

/-- C1 amended witness: writing `2` over `"a" ↦ 1` wakes the per-key and
whole-table waiters; writing `1` over `"a" ↦ 1` wakes none. -/
theorem mapTable_write_change_conditional_witness :
    ((JSVal.num 2) ≠ ((tableA.map "a").getD .undef) ∧
      (tableA.setKey "a" (.num 2)).woke_key = tableA.key_callbacks "a" ∧
      (tableA.setKey "a" (.num 2)).woke_map = tableA.map_callbacks ∧
      (tableA.setKey "a" (.num 2)).state.key_callbacks "a" = [] ∧
      (tableA.setKey "a" (.num 2)).state.map_callbacks = []) ∧
    ((JSVal.num 1) = ((tableA.map "a").getD .undef) ∧
      (tableA.setKey "a" (.num 1)).woke_key = [] ∧
      (tableA.setKey "a" (.num 1)).woke_map = [] ∧
      (tableA.setKey "a" (.num 1)).woke_exist = []) :=
  ⟨⟨by decide,
    (mapTable_write_change_conditional tableA "a" (.num 2)).1 (by decide)⟩,
   ⟨by decide,
    (mapTable_write_change_conditional tableA "a" (.num 1)).2 (by decide)⟩⟩

/-- C10 counterexample: writing the falsy value `""` to the *absent* key
`"k"` is not a complete no-op: since `"" !== undefined`, the per-key
waiter `5` and the whole-table waiter `6` are woken. -/
theorem mapTable_absent_falsy_write_wakes :
    tableEmpty.map "k" = none ∧ (JSVal.str "").truthy = false ∧
    (tableEmpty.setKey "k" (.str "")).woke_key = [5] ∧
    (tableEmpty.setKey "k" (.str "")).woke_map = [6] := by
  refine ⟨rfl, rfl, ?_, ?_⟩ <;> decide

/-- C10 amended: writing a falsy value to an absent key leaves the entry
map unchanged and wakes no existence waiter; it is a *complete* no-op
exactly when the value is `undefined` (reference-equal to the absent
read), while any other falsy value still wakes the per-key and
whole-table waiters because `val !== undefined`. -/
theorem mapTable_absent_falsy_write
    (st : MapGeneratorListener) (key : String) (val : JSVal)
    (habs : st.map key = none) (hf : val.truthy = false) :
    (st.setKey key val).state.map = st.map ∧
    (st.setKey key val).woke_exist = [] ∧
    (val = .undef → st.setKey key val =
      { state := st, woke_exist := [], woke_key := [], woke_map := [] }) ∧
    (val ≠ .undef →
      (st.setKey key val).woke_key = st.key_callbacks key ∧
      (st.setKey key val).woke_map = st.map_callbacks) := by
  have hm : Function.update st.map key none = st.map := by
    rw [← habs]
    exact Function.update_eq_self key st.map
  have hprev : (st.map key).getD .undef = .undef := by rw [habs]; rfl
  have hec : MapGeneratorListener.existChange ((st.map key).getD .undef) val = false := by
    rw [hprev]
    simp [MapGeneratorListener.existChange, hf,
      show JSVal.undef.truthy = false from rfl]
  by_cases h : val = .undef
  · subst h
    have heq := MapGeneratorListener.setKey_of_eq st key .undef (by rw [hprev])
    rw [if_neg (by simp [JSVal.truthy]), hm] at heq
    refine ⟨?_, ?_, fun _ => ?_, fun hc => absurd rfl hc⟩ <;> rw [heq]
  · have hne := MapGeneratorListener.setKey_of_ne st key val (by rw [hprev]; exact h)
    rw [hne]
    exact ⟨by simp [hf, hm], by simp [hec], fun hc => absurd hc h, fun _ => ⟨rfl, rfl⟩⟩

/-- C10 amended witness: instantiation at the empty table, the absent key
`"k"` and the falsy value `""`. -/
theorem mapTable_absent_falsy_write_witness :
    tableEmpty.map "k" = none ∧ (JSVal.str "").truthy = false ∧
    ((tableEmpty.setKey "k" (.str "")).state.map = tableEmpty.map ∧
      (tableEmpty.setKey "k" (.str "")).woke_exist = [] ∧
      ((JSVal.str "") = .undef → tableEmpty.setKey "k" (.str "") =
        { state := tableEmpty, woke_exist := [], woke_key := [], woke_map := [] }) ∧
      ((JSVal.str "") ≠ .undef →
        (tableEmpty.setKey "k" (.str "")).woke_key = tableEmpty.key_callbacks "k" ∧
        (tableEmpty.setKey "k" (.str "")).woke_map = tableEmpty.map_callbacks)) :=
  ⟨rfl, rfl, mapTable_absent_falsy_write tableEmpty "k" (.str "") rfl rfl⟩

/-!
## Service registry (`src/src/index.ts`)

`MainWorker.registerService`, the version-selection loop of
`MainWorker.setupServiceVersion`, `MainWorker.getService` and
`MainWorker.requestServices`.  Sets (`services`, `services_active`) are
modelled as lists in insertion order; a thrown `TypeError` is modelled
as `Except.error` carrying the message. -/

/-- A semantic version triple `[major, minor, patch]`. -/
abbrev SemverVersion := Nat × Nat × Nat

/-- A minimum-version request `[major, minor]`.  (`setupServiceVersion`
also accepts a full `SemverVersion` as the request, but only reads its
first two components, so a request is modelled by this pair.) -/
abbrev MinimumSemver := Nat × Nat

/-- A `ServiceVersionDescriptor` (only its `version` field is relevant
to the registry logic). -/
structure ServiceVersionDescriptor where
  version : SemverVersion
deriving DecidableEq, Repr

/-- A `ServiceDescriptor`: hierarchical id and supported versions.  The
constructor/factory field only matters for instance creation, which no
claim touches, and is omitted. -/
structure ServiceDescriptor where
  id : List String
  versions : List ServiceVersionDescriptor
deriving DecidableEq, Repr

/-- `addrsEqual(a, b)`:
`a.length === b.length && a.every((p, i) => b[i] === p)`. -/
def addrsEqual (a b : List String) : Bool :=
  a.length == b.length && (a.zip b).all fun pq => pq.1 == pq.2

/-- The matching test of the version-selection loop in
`setupServiceVersion`: `v.version[0] === req[0] && v.version[1] >= req[1]`. -/
def versionMatches (req : MinimumSemver) (v : ServiceVersionDescriptor) : Bool :=
  v.version.1 == req.1 && req.2 ≤ v.version.2.1

/-- The version-selection loop of `MainWorker.setupServiceVersion`:

```
let version: ServiceVersionDescriptor | undefined = undefined
for (const v of service.versions) {
  if (v.version[0] === req[0] && v.version[1] >= req[1]) {
    version = v
  }
}
```
-/
def resolveVersion (versions : List ServiceVersionDescriptor) (req : MinimumSemver) :
    Option ServiceVersionDescriptor :=
  versions.foldl (fun version v => if versionMatches req v then some v else version) none

/-- `MainWorker.registerService`: errors if an already-registered
descriptor has an equal id; the duplicate-major check builds a
`used_major` set that the source never adds to, so that branch can
never throw; otherwise the descriptor is appended to the registry. -/
def registerService (services : List ServiceDescriptor) (s : ServiceDescriptor) :
    Except String (List ServiceDescriptor) :=
  if services.any fun t => addrsEqual t.id s.id then
    .error "already registered"
  else if (s.versions.foldl
      (fun (acc : List Nat × Bool) v => (acc.1, acc.2 || acc.1.contains v.version.1))
      ([], false)).2 then
    .error "has duplicate major versions"
  else
    .ok (services ++ [s])

/-- Registry state relevant to version resolution: the registered
descriptors and the set of activated versions.  A
`ServiceVersionDescriptor` object belongs to exactly one descriptor, so
membership of `services_active` is keyed by the pair (service id,
version descriptor).  The lazily-created instance map only affects
construction side effects, which no claim mentions. -/
structure WorkerState where
  services : List ServiceDescriptor
  services_active : List (List String × ServiceVersionDescriptor)
deriving DecidableEq, Repr

/-- `MainWorker.setupServiceVersion`: auto-register the descriptor if
unseen (which may throw), select a version with the last-match loop,
return `none` if no version matched, otherwise mark the version active
(idempotently) and return it. -/
def setupServiceVersion (st : WorkerState) (s : ServiceDescriptor) (req : MinimumSemver) :
    Except String (WorkerState × Option SemverVersion) := do
  let st ←
    if st.services.contains s then pure st
    else do
      let services ← registerService st.services s
      pure { st with services }
  match resolveVersion s.versions req with
  | none => .ok (st, none)
  | some version =>
    if st.services_active.contains (s.id, version) then
      .ok (st, some version.version)
    else
      .ok ({ st with services_active := st.services_active ++ [(s.id, version)] },
        some version.version)

/-- `MainWorker.getService`: linear scan keeping the last descriptor
whose id equals the requested one. -/
def getService (st : WorkerState) (id : List String) : Option ServiceDescriptor :=
  st.services.foldl (fun service s => if addrsEqual id s.id then some s else service) none

/-- A `ServiceRequest`: id plus acceptable minimum versions. -/
structure ServiceRequest where
  id : List String
  versions : List MinimumSemver
deriving DecidableEq, Repr

/-- One entry of `MainWorker.requestServices`'s `requests.map` callback:

```
const service = this.getService(id)
if (!service) { throw new TypeError(...) }
let version: SemverVersion | undefined = undefined
versions.some((ver) => {
  version = this.setupServiceVersion(service, ver)
})
if (!version) { throw new TypeError('Unable to find suitable version ...') }
return { id, version }
```

The `some` callback's body is a block that returns `undefined`, so the
iteration never stops early: every acceptable version is attempted and
`version` ends up holding the result of the *last* attempt. -/
def processRequest (st : WorkerState) (r : ServiceRequest) :
    Except String (WorkerState × (List String × SemverVersion)) := do
  match getService st r.id with
  | none => .error "not registered"
  | some service =>
    let (st, version) ← r.versions.foldlM
      (fun (acc : WorkerState × Option SemverVersion) ver =>
        setupServiceVersion acc.1 service ver)
      (st, none)
    match version with
    | none => .error "Unable to find suitable version"
    | some v => .ok (st, (r.id, v))

/-- `MainWorker.requestServices`: `requests.map(...)`; a thrown
`TypeError` from any entry aborts the whole batch. -/
def requestServices (st : WorkerState) (requests : List ServiceRequest) :
    Except String (WorkerState × List (List String × SemverVersion)) :=
  requests.foldlM
    (fun acc r => do
      let (st, resp) ← processRequest acc.1 r
      pure (st, acc.2 ++ [resp]))
    (st, [])

/-- `find?` distributes over append, first list first. -/
theorem find?_append_eq {α : Type} (p : α → Bool) :
    ∀ l₁ l₂ : List α, (l₁ ++ l₂).find? p =
      (match l₁.find? p with
        | some v => some v
        | none => l₂.find? p) := by
  intro l₁ l₂
  induction l₁ with
  | nil => rfl
  | cons x xs ih =>
    cases hp : p x <;> simp [List.find?, hp, ih]

/-- A keep-last `foldl` computes the last match, i.e. the first match of
the reversed list (with the initial accumulator as fallback). -/
theorem foldl_lastMatch {α : Type} (p : α → Bool) :
    ∀ (l : List α) (acc : Option α),
      l.foldl (fun acc v => if p v then some v else acc) acc =
        (match l.reverse.find? p with
          | some v => some v
          | none => acc) := by
  intro l
  induction l with
  | nil => intro acc; rfl
  | cons x xs ih =>
    intro acc
    rw [List.foldl_cons, ih, List.reverse_cons, find?_append_eq]
    cases hfind : xs.reverse.find? p <;> cases hp : p x <;>
      simp [List.find?, hp]

/-- The selection loop keeps the last match: it equals first-match over
the reversed version list. -/
theorem resolveVersion_eq_reverse_find (versions : List ServiceVersionDescriptor)
    (req : MinimumSemver) :
    resolveVersion versions req = versions.reverse.find? (versionMatches req) := by
  rw [resolveVersion, foldl_lastMatch]
  cases h : versions.reverse.find? (versionMatches req) <;> simp

/-- C2: version resolution scans the descriptor's versions in
registration order and returns the last entry whose major equals the
requested major and whose minor is ≥ the requested minor (equivalently,
the first match of the reversed list); it returns `undefined` when no
entry matches; and the request `(1,2)` against `[(1,1,0), (1,3,0),
(1,2,5)]` resolves to `(1,2,5)`, not `(1,3,0)`. -/
theorem resolveVersion_last_match :
    (∀ (versions : List ServiceVersionDescriptor) (req : MinimumSemver),
      resolveVersion versions req = versions.reverse.find? (versionMatches req)) ∧
    resolveVersion [⟨(1,1,0)⟩, ⟨(1,3,0)⟩, ⟨(1,2,5)⟩] (1,2) = some ⟨(1,2,5)⟩ ∧
    (∀ (versions : List ServiceVersionDescriptor) (req : MinimumSemver),
      (∀ v ∈ versions, versionMatches req v = false) →
      resolveVersion versions req = none) := by
  refine ⟨resolveVersion_eq_reverse_find, by decide, ?_⟩
  intro versions req h
  rw [resolveVersion_eq_reverse_find]
  apply List.find?_eq_none.2
  intro v hv
  simp [h v (List.mem_reverse.1 hv)]

/-- C2 witness: no version with major `1` exists in `[(2,0,0)]`, so the
request `(1,0)` resolves to `undefined`. -/
theorem resolveVersion_last_match_witness :
    (∀ v ∈ [ServiceVersionDescriptor.mk (2,0,0)], versionMatches (1,0) v = false) ∧
    resolveVersion [⟨(2,0,0)⟩] (1,0) = none :=
  ⟨by decide, resolveVersion_last_match.2.2 [⟨(2,0,0)⟩] (1,0) (by decide)⟩

/-- A descriptor that lists major `1` twice, violating the documented
duplicate-major invariant. -/
def dupMajorDesc : ServiceDescriptor :=
  { id := ["svc"], versions := [⟨(1,0,0)⟩, ⟨(1,1,0)⟩] }

/-- C8 (code bug): `registerService` accepts `dupMajorDesc` even though
it has two versions with major `1` — the `used_major` set in the source
is never added to, so the duplicate-major branch is unreachable.  The
duplicate-id half of the claim does hold: re-registering an id fails and
adds nothing. -/
theorem registerService_dup_major_not_rejected :
    registerService [] dupMajorDesc = .ok [dupMajorDesc] ∧
    registerService [dupMajorDesc] { id := ["svc"], versions := [] } =
      .error "already registered" := by
  constructor <;> rfl

/-- The registered service used for the batch-request counterexample:
versions `(1,0,0)` and `(2,0,0)`. -/
def svcS : ServiceDescriptor :=
  { id := ["s"], versions := [⟨(1,0,0)⟩, ⟨(2,0,0)⟩] }

/-- Registry state with `svcS` registered and nothing active. -/
def stS : WorkerState := { services := [svcS], services_active := [] }

/-- C3 (code bug): a batch request for service `["s"]` with acceptable
versions `[(1,0), (3,0)]` fails with "Unable to find suitable version"
even though the *first* acceptable version `(1,0)` resolves (to
`(1,0,0)`, as the first conjuncts show): the `versions.some` callback in
`requestServices` returns `undefined`, so iteration never stops at the
first success and the final `version` is the result of the *last*
attempt. -/
theorem requestServices_ignores_first_success :
    resolveVersion svcS.versions (1, 0) = some ⟨(1,0,0)⟩ ∧
    setupServiceVersion stS svcS (1, 0) =
      .ok ({ services := [svcS], services_active := [(["s"], ⟨(1,0,0)⟩)] },
        some (1,0,0)) ∧
    requestServices stS [{ id := ["s"], versions := [(1,0), (3,0)] }] =
      .error "Unable to find suitable version" := by
  refine ⟨by decide, by rfl, by rfl⟩

/-!
## Permission engine (`src/src/services/apps/index.ts`)

The `addPermission` closure of `ServiceClass.setupAndGetEntryChannel`:

```
const granted: Set<Permissions.Permission> = new Set()
const addPermission = (perm: string) => {
  const perm_obj = Permissions.default[perm]
  if (!perm_obj) {
    this.log.warn(`Permission ... not known ...`)
  } else if (!granted.has(perm_obj)) {
    granted.add(perm_obj)
    perm_obj.inherits.forEach(addPermission)
    try {
      perm_obj.grantOn(ch.access, context)
    } catch (e) {
      this.log.warn(`Failed to grant permission ...`, e)
    }
  }
}
app.permissions.value.forEach(addPermission)
```

The permission table is a literal object mapping each id to a distinct
`Permission` object, so `granted` membership by object identity
coincides with membership of the id.  `grantOn` mutates the ACL map and
may throw; it is modelled as `α → α × Bool` yielding the map after
whatever mutations happened (mutations made before a throw persist) and
whether it threw.  Each recursive call strictly grows `granted` with a
table id, so recursion depth in the source is bounded; the model makes
this explicit with a `fuel` parameter (any `fuel` larger than the
recursion depth gives the source behaviour). -/

/-- A permission: inherited permission ids and the `grantOn` ACL
mutation (see the section comment for the `α → α × Bool` convention). -/
structure Permission (α : Type) where
  inherits : List String
  grantOn : α → α × Bool

/-- The permission table `Permissions.default`, as an association list
in declaration order. -/
abbrev PermTable (α : Type) := List (String × Permission α)

/-- `Permissions.default[perm]` object-property lookup. -/
def lookupPerm {α : Type} (table : PermTable α) (perm : String) : Option (Permission α) :=
  (table.find? fun e => e.1 == perm).map (·.2)

/-- Observable state of one closure application: the `granted` guard
set (ids, in insertion order), the ACL map, the ids whose `grantOn` was
invoked in invocation order (`trace`), the unknown ids that were warned
about, and the ids whose `grantOn` threw (caught and logged). -/
structure PermState (α : Type) where
  granted : List String
  acl : α
  trace : List String
  unknown : List String
  failures : List String

/-- The `addPermission` closure (see the section comment). -/
def addPermission {α : Type} (table : PermTable α) :
    Nat → PermState α → String → PermState α
  | 0, st, _ => st
  | fuel+1, st, perm =>
    match lookupPerm table perm with
    | none => { st with unknown := st.unknown ++ [perm] }
    | some po =>
      if perm ∈ st.granted then st
      else
        let st1 : PermState α := { st with granted := st.granted ++ [perm] }
        let st2 := po.inherits.foldl (addPermission table fuel) st1
        let res := po.grantOn st2.acl
        { st2 with
          acl := res.1
          trace := st2.trace ++ [perm]
          failures := st2.failures ++ (if res.2 then [perm] else []) }

/-- `requested.forEach(addPermission)` — application of a whole
requested permission list. -/
def applyPermissions {α : Type} (table : PermTable α) (fuel : Nat)
    (requested : List String) (st : PermState α) : PermState α :=
  requested.foldl (addPermission table fuel) st

/-- `q` is an ancestor of `p`: reachable from `p` through one or more
`inherits` edges of the table. -/
inductive Ancestor {α : Type} (table : PermTable α) : String → String → Prop where
  | direct {p q : String} {po : Permission α} :
      lookupPerm table p = some po → q ∈ po.inherits → Ancestor table p q
  | trans {p r q : String} {po : Permission α} :
      lookupPerm table p = some po → r ∈ po.inherits → Ancestor table r q →
      Ancestor table p q

/-- Every id whose grant is invoked during `addPermission table fuel st
perm` (beyond those already traced in `st`) is `perm` itself or an
ancestor of `perm`. -/
theorem addPermission_trace {α : Type} (table : PermTable α) :
    ∀ (fuel : Nat) (st : PermState α) (perm : String),
      ∃ t, (addPermission table fuel st perm).trace = st.trace ++ t ∧
        ∀ q ∈ t, q = perm ∨ Ancestor table perm q := by
  intro fuel
  induction fuel with
  | zero =>
    intro st perm
    exact ⟨[], by simp [addPermission], by simp⟩
  | succ n ih =>
    have hfold : ∀ (perms : List String) (st : PermState α),
        ∃ t, (perms.foldl (addPermission table n) st).trace = st.trace ++ t ∧
          ∀ q ∈ t, ∃ r ∈ perms, q = r ∨ Ancestor table r q := by
      intro perms
      induction perms with
      | nil => intro st; exact ⟨[], by simp, by simp⟩
      | cons p ps ihp =>
        intro st
        obtain ⟨t1, h1, h1a⟩ := ih st p
        obtain ⟨t2, h2, h2a⟩ := ihp (addPermission table n st p)
        refine ⟨t1 ++ t2, ?_, ?_⟩
        · rw [List.foldl_cons, h2, h1, List.append_assoc]
        · intro q hq
          rcases List.mem_append.1 hq with hq | hq
          · exact ⟨p, List.mem_cons_self p ps, h1a q hq⟩
          · obtain ⟨r, hr, hqr⟩ := h2a q hq
            exact ⟨r, List.mem_cons_of_mem p hr, hqr⟩
    intro st perm
    cases hlook : lookupPerm table perm with
    | none => exact ⟨[], by simp [addPermission, hlook], by simp⟩
    | some po =>
      by_cases hg : perm ∈ st.granted
      · exact ⟨[], by simp [addPermission, hlook, hg], by simp⟩
      · obtain ⟨t, ht, hta⟩ :=
          hfold po.inherits { st with granted := st.granted ++ [perm] }
        refine ⟨t ++ [perm], ?_, ?_⟩
        · simp only [addPermission, hlook, hg, if_false, ite_false]
          rw [ht]
          simp [List.append_assoc]
        · intro q hq
          rcases List.mem_append.1 hq with hq | hq
          · rcases hta q hq with ⟨r, hr, rfl | hanc⟩
            · exact Or.inr (Ancestor.direct hlook hr)
            · exact Or.inr (Ancestor.trans hlook hr hanc)
          · rcases List.mem_singleton.1 hq with rfl
            exact Or.inl rfl

/-- Fold version of `addPermission_trace` for a list of requested ids. -/
theorem applyPermissions_trace {α : Type} (table : PermTable α)
    (fuel : Nat) :
    ∀ (perms : List String) (st : PermState α),
      ∃ t, (perms.foldl (addPermission table fuel) st).trace = st.trace ++ t ∧
        ∀ q ∈ t, ∃ r ∈ perms, q = r ∨ Ancestor table r q := by
  intro perms
  induction perms with
  | nil => intro st; exact ⟨[], by simp, by simp⟩
  | cons p ps ihp =>
    intro st
    obtain ⟨t1, h1, h1a⟩ := addPermission_trace table fuel st p
    obtain ⟨t2, h2, h2a⟩ := ihp (addPermission table fuel st p)
    refine ⟨t1 ++ t2, ?_, ?_⟩
    · rw [List.foldl_cons, h2, h1, List.append_assoc]
    · intro q hq
      rcases List.mem_append.1 hq with hq | hq
      · exact ⟨p, List.mem_cons_self p ps, h1a q hq⟩
      · obtain ⟨r, hr, hqr⟩ := h2a q hq
        exact ⟨r, List.mem_cons_of_mem p hr, hqr⟩

/-- The two-permission table `{X: inherits [], Y: inherits [X]}` with
arbitrary grant mutations. -/
def tableXYg {α : Type} (gX gY : α → α × Bool) : PermTable α :=
  [("X", { inherits := [], grantOn := gX }),
   ("Y", { inherits := ["X"], grantOn := gY })]

/-- The table `{X: inherits [], Y: inherits [X]}` over list-of-strings
ACLs, where each grant appends its own marker. -/
def tableXYc : PermTable (List String) :=
  tableXYg (fun a => (a ++ ["gX"], false)) (fun a => (a ++ ["gY"], false))

/-- A cyclic table `{A: inherits [B], B: inherits [A]}`. -/
def tableCyc : PermTable (List String) :=
  [("A", { inherits := ["B"], grantOn := fun a => (a ++ ["gA"], false) }),
   ("B", { inherits := ["A"], grantOn := fun a => (a ++ ["gB"], false) })]

/-- The initial `PermState`: empty `granted`, given ACL, nothing traced. -/
def permInit0 {α : Type} (acl : α) : PermState α :=
  { granted := [], acl := acl, trace := [], unknown := [], failures := [] }

/-- C6: permission-closure application recurses into `inherits` before
invoking the permission's own grant: whenever a known, not-yet-granted
permission is applied, the invocation trace it produces consists of
grants of its ancestors followed by its own grant, last.  In particular,
over `{X: inherits [], Y: inherits [X]}`, applying `["Y"]` invokes X's
grant before Y's grant (and mutates the ACL in that order), and the
`granted`-before-recursion cycle guard terminates the cyclic table
`{A: inherits [B], B: inherits [A]}` with each grant invoked once. -/
theorem addPermission_ancestors_first :
    (∀ (α : Type) (table : PermTable α) (fuel : Nat) (st : PermState α)
      (perm : String) (po : Permission α),
      lookupPerm table perm = some po → perm ∉ st.granted →
      ∃ t, (addPermission table (fuel+1) st perm).trace = st.trace ++ t ++ [perm] ∧
        ∀ q ∈ t, Ancestor table perm q) ∧
    (∀ n : Nat,
      (applyPermissions tableXYc (n+2) ["Y"] (permInit0 [])).trace = ["X", "Y"] ∧
      (applyPermissions tableXYc (n+2) ["Y"] (permInit0 [])).acl = ["gX", "gY"]) ∧
    (∀ n : Nat,
      (applyPermissions tableCyc (n+3) ["A"] (permInit0 [])).trace = ["B", "A"]) := by
  refine ⟨?_, ?_, ?_⟩
  · intro α table fuel st perm po hlook hg
    obtain ⟨t, ht, hta⟩ :=
      applyPermissions_trace table fuel po.inherits
        { st with granted := st.granted ++ [perm] }
    refine ⟨t, ?_, ?_⟩
    · simp only [addPermission, hlook, hg, if_false, ite_false]
      rw [ht]
    · intro q hq
      rcases hta q hq with ⟨r, hr, rfl | hanc⟩
      · exact Ancestor.direct hlook hr
      · exact Ancestor.trans hlook hr hanc
  · intro n
    constructor <;>
      simp [applyPermissions, addPermission, tableXYc, tableXYg, lookupPerm,
        permInit0, List.find?]
  · intro n
    simp [applyPermissions, addPermission, tableCyc, lookupPerm, permInit0,
      List.find?]

/-- C6 witness: instantiation of the general part at `tableXYc`,
permission `"Y"` and the initial state. -/
theorem addPermission_ancestors_first_witness :
    ∃ t, (addPermission tableXYc 2 (permInit0 []) "Y").trace =
        (permInit0 ([] : List String)).trace ++ t ++ ["Y"] ∧
      ∀ q ∈ t, Ancestor tableXYc "Y" q :=
  addPermission_ancestors_first.1 (List String) tableXYc 1 (permInit0 [])
    "Y" { inherits := ["X"], grantOn := fun a => (a ++ ["gY"], false) }
    rfl (by simp [permInit0])

/-- C7: over `{X: inherits [], Y: inherits [X]}` with arbitrary grant
mutations, applying `["X","Y"]`, `["Y","X"]` and `["Y","Y"]` each
invoke X's grant and Y's grant exactly once, in that order, and end in
the same final ACL as applying `["Y"]`, namely Y's mutation after X's —
idempotence and order-independence at the set level, for any fuel at
least the recursion depth. -/
theorem applyPermissions_set_semantics (α : Type) (gX gY : α → α × Bool)
    (acl0 : α) (n : Nat) :
    ((applyPermissions (tableXYg gX gY) (n+2) ["X", "Y"] (permInit0 acl0)).acl =
        (gY (gX acl0).1).1 ∧
      (applyPermissions (tableXYg gX gY) (n+2) ["Y", "X"] (permInit0 acl0)).acl =
        (gY (gX acl0).1).1 ∧
      (applyPermissions (tableXYg gX gY) (n+2) ["Y", "Y"] (permInit0 acl0)).acl =
        (gY (gX acl0).1).1 ∧
      (applyPermissions (tableXYg gX gY) (n+2) ["Y"] (permInit0 acl0)).acl =
        (gY (gX acl0).1).1) ∧
    ((applyPermissions (tableXYg gX gY) (n+2) ["X", "Y"] (permInit0 acl0)).trace =
        ["X", "Y"] ∧
      (applyPermissions (tableXYg gX gY) (n+2) ["Y", "X"] (permInit0 acl0)).trace =
        ["X", "Y"] ∧
      (applyPermissions (tableXYg gX gY) (n+2) ["Y", "Y"] (permInit0 acl0)).trace =
        ["X", "Y"] ∧
      (applyPermissions (tableXYg gX gY) (n+2) ["Y"] (permInit0 acl0)).trace =
        ["X", "Y"]) := by
  rcases hgx : gX acl0 with ⟨a1, b1⟩
  rcases hgy : gY a1 with ⟨a2, b2⟩
  refine ⟨⟨?_, ?_, ?_, ?_⟩, ⟨?_, ?_, ?_, ?_⟩⟩ <;>
    simp [applyPermissions, addPermission, tableXYg, lookupPerm, permInit0,
      List.find?, hgx, hgy]

/-- The table `{X: inherits [], Y: inherits [X], Z: inherits []}` in
which X's grant always throws (without mutating the ACL) while Y's and
Z's grants apply `gY`/`gZ` and succeed. -/
def tableGrantFail {α : Type} (gY gZ : α → α) : PermTable α :=
  [("X", { inherits := [], grantOn := fun a => (a, true) }),
   ("Y", { inherits := ["X"], grantOn := fun a => (gY a, false) }),
   ("Z", { inherits := [], grantOn := fun a => (gZ a, false) })]

/-- C9: a throw from an individual grant is caught and recorded, and
neither the rest of the inheriting permission's closure nor the
remaining requested permissions are skipped: requesting `["Y", "Z"]`
when X (inherited by Y) throws still invokes X, Y, Z in order, records
exactly X as failed, and ends with Y's and Z's mutations applied. -/
theorem grant_failure_non_fatal (α : Type) (gY gZ : α → α) (acl0 : α) (n : Nat) :
    (applyPermissions (tableGrantFail gY gZ) (n+2) ["Y", "Z"]
        (permInit0 acl0)).trace = ["X", "Y", "Z"] ∧
    (applyPermissions (tableGrantFail gY gZ) (n+2) ["Y", "Z"]
        (permInit0 acl0)).failures = ["X"] ∧
    (applyPermissions (tableGrantFail gY gZ) (n+2) ["Y", "Z"]
        (permInit0 acl0)).acl = gZ (gY acl0) := by
  refine ⟨?_, ?_, ?_⟩ <;>
    simp [applyPermissions, addPermission, tableGrantFail, lookupPerm,
      permInit0, List.find?]

/-!
## Stream chaining (`chainGen` in `src/src/generatorlistener.ts`)

`chainGen` keeps a `pub_gen` reference to the currently published inner
generator.  The outer drain loop replaces `pub_gen` (after calling
`return` on the previous one) each time the outer stream yields a new
inner generator; each `startChaining` forwarding loop checks, on every
value it pulls, `if (gen !== pub_gen) break` *synchronously before*
`genout.yield(val)`, so a value is forwarded only if its generator is
`pub_gen` at delivery time.  Scheduling is a single-threaded event
loop, so the behaviour is a sequence of atomic events: either the outer
stream yields a new inner generator (`ChainEv.outer g`), or a pending
`next()` of inner generator `g` resolves with value `v`
(`ChainEv.inner g v`).  Inner generators are named by `Nat` identities
and carry `Int` values; `chainStep` gives the published-generator
update and the forwarded outputs of one event, per the source's check.
`chainMapGen genin mapT = chainGen (mapGen genin mapT undefined)`
inherits this behaviour with the inner streams `mapT v`. -/

/-- One event of the event loop driving `chainGen`. -/
inductive ChainEv where
  | outer (g : Nat)
  | inner (g : Nat) (v : Int)
deriving DecidableEq, Repr

/-- Effect of one event: a new inner generator from the outer stream
replaces `pub_gen` and forwards nothing; a value arriving from inner
generator `g` is forwarded iff `g` is still `pub_gen` (the
`gen !== pub_gen` break check), tagged with its source. -/
def chainStep : Option Nat → ChainEv → Option Nat × List (Nat × Int)
  | _, .outer g => (some g, [])
  | pub, .inner g v => (pub, if pub = some g then [(g, v)] else [])

/-- The outputs forwarded to `genout` over a whole event sequence. -/
def chainRun : Option Nat → List ChainEv → List (Nat × Int)
  | _, [] => []
  | pub, e :: rest => (chainStep pub e).2 ++ chainRun (chainStep pub e).1 rest

/-- The published generator after a sequence of events. -/
def pubAfter (pub : Option Nat) (evs : List ChainEv) : Option Nat :=
  evs.foldl (fun p e => (chainStep p e).1) pub

/-- `chainRun` splits over append at the intermediate published
generator. -/
theorem chainRun_append :
    ∀ (xs ys : List ChainEv) (pub : Option Nat),
      chainRun pub (xs ++ ys) = chainRun pub xs ++ chainRun (pubAfter pub xs) ys := by
  intro xs
  induction xs with
  | nil => intro ys pub; rfl
  | cons e xs ih =>
    intro ys pub
    calc chainRun pub ((e :: xs) ++ ys)
        = (chainStep pub e).2 ++ chainRun (chainStep pub e).1 (xs ++ ys) := rfl
      _ = (chainStep pub e).2 ++ (chainRun (chainStep pub e).1 xs ++
            chainRun (pubAfter (chainStep pub e).1 xs) ys) := by rw [ih]
      _ = chainRun pub (e :: xs) ++ chainRun (pubAfter pub (e :: xs)) ys := by
            simp [chainRun, pubAfter, List.append_assoc]

/-- A value event keeps the published generator unchanged. -/
theorem chainStep_inner_fst (pub : Option Nat) (g : Nat) (v : Int) :
    (chainStep pub (.inner g v)).1 = pub := rfl

/-- C5: after the outer stream switches the published inner stream to
`B`, and until any further switch, every value forwarded to the output
comes from `B`: the outputs of the whole run are exactly those from
before the switch followed by those produced with `B` published, and
each of the latter is tagged with source `B` — so no value from the
previously published stream is delivered after the switch, and the
first value forwarded after the switch comes from `B`. -/
theorem chainGen_switch_no_interleave (pub0 : Option Nat) (pre post : List ChainEv)
    (B : Nat) (hpost : ∀ g, ChainEv.outer g ∉ post) :
    chainRun pub0 (pre ++ ChainEv.outer B :: post) =
      chainRun pub0 pre ++ chainRun (some B) post ∧
    ∀ p ∈ chainRun (some B) post, p.1 = B := by
  constructor
  · rw [chainRun_append]
    rfl
  · clear pre pub0
    induction post with
    | nil => intro p hp; simp [chainRun] at hp
    | cons e rest ih =>
      intro p hp
      have hrest : ∀ g, ChainEv.outer g ∉ rest := fun g hg =>
        hpost g (List.mem_cons_of_mem e hg)
      cases e with
      | outer g => exact absurd (List.mem_cons_self _ _) (hpost g)
      | inner g v =>
        simp only [chainRun, chainStep] at hp
        rcases List.mem_append.1 hp with hp | hp
        · by_cases hg : (some B : Option Nat) = some g
          · rw [if_pos hg] at hp
            rcases List.mem_singleton.1 hp with rfl
            exact (Option.some_injective Nat hg).symm
          · rw [if_neg hg] at hp
            simp at hp
        · exact ih hrest p hp

/-- C5 witness: with stream `0` published, the pending value `3` from
stream `0` arriving after the switch to stream `1` is dropped, and the
value `9` from stream `1` is forwarded. -/
theorem chainGen_switch_no_interleave_witness :
    (∀ g, ChainEv.outer g ∉ [ChainEv.inner 0 3, ChainEv.inner 1 9]) ∧
    (chainRun (some 0)
        ([ChainEv.inner 0 1] ++ ChainEv.outer 1 ::
          [ChainEv.inner 0 3, ChainEv.inner 1 9]) =
      chainRun (some 0) [ChainEv.inner 0 1] ++
        chainRun (some 1) [ChainEv.inner 0 3, ChainEv.inner 1 9] ∧
    ∀ p ∈ chainRun (some 1) [ChainEv.inner 0 3, ChainEv.inner 1 9], p.1 = 1) :=
  ⟨by intro g; simp,
   chainGen_switch_no_interleave (some 0) [ChainEv.inner 0 1]
     [ChainEv.inner 0 3, ChainEv.inner 1 9] 1 (by intro g; simp)⟩
